import Mathlib

/-!
Verification of the Framer-Bot gesture/overlay pipeline.

Shallow embedding of the core of the repository:
  * `src/gesture_buffer.py`  — the gesture confirmation (debounce) buffer;
  * `src/gesture_detector.py` — rotation search and coordinate un-rotation;
  * `src/animation.py`        — clip loading, the per-gesture animation
    player state machine, and the alpha-blending compositor;
  * `src/video_processor.py`  — the processor stage's adaptive-sampling
    loop (its per-frame decision logic, with the detector abstracted as
    an input trace).

Machine floats are modelled by rationals, numpy pixel buffers by
functions from coordinates, and I/O effects (PIL decoding, MediaPipe
inference) by explicit input traces.
-/

namespace FramerBot

/-! ## Configuration constants (src/config.py) -/

def GESTURE_CONFIRM_FRAMES : ℕ := 10

def GESTURE_CLEAR_FRAMES : ℕ := 6

def GESTURE_CONFIRM_RATIO : ℚ := 6 / 10   -- 0.6 in the source

def ROTATION_ANGLES : List ℕ := [0, 90, 180, 270]

def ANIM_FADE_FRAMES : ℕ := 15

/-! ## Gesture buffer (src/gesture_buffer.py)

`GestureName = str | None` becomes `Option String`.  The `deque` with
`maxlen=GESTURE_CONFIRM_FRAMES` becomes a list from which the oldest
element is dropped once the length exceeds the cap. -/

abbrev GestureName := Option String

structure GestureBuffer where
  buf            : List GestureName
  no_hand_streak : ℕ
  confirmed      : GestureName
  skip_rotation  : Bool
  last_nx        : ℚ
  last_ny        : ℚ
deriving DecidableEq, Repr

/-- `GestureBuffer.__init__`: empty window, zero streak, nothing confirmed,
no skip hint, last position (0.5, 0.5). -/
def GestureBuffer.init : GestureBuffer :=
  ⟨[], 0, none, false, 1 / 2, 1 / 2⟩

/-- The keys of the Python `counts` dict in insertion order: first
occurrence order of the non-null labels scanned left to right
(Python dicts preserve insertion order). -/
def keysInOrder (buf : List GestureName) : List String :=
  buf.foldl (fun ks g =>
    match g with
    | none => ks
    | some s => if s ∈ ks then ks else ks ++ [s]) []

/-- `counts[g]`: occurrences of the non-null label `s` in the window. -/
def countOf (buf : List GestureName) (s : String) : ℕ :=
  buf.count (some s)

/-- `max(counts, key=counts.__getitem__)`: Python's `max` keeps the first
key attaining the maximum in iteration (= insertion) order, replacing the
running best only on a strictly greater count. -/
def maxByCount (buf : List GestureName) : List String → Option String
  | [] => none
  | k :: ks =>
      some (ks.foldl (fun best k2 =>
        if countOf buf k2 > countOf buf best then k2 else best) k)

/-- `GestureBuffer._get_confirmed`. -/
def GestureBuffer.getConfirmed (b : GestureBuffer) : GestureName :=
  if b.buf.length < GESTURE_CONFIRM_FRAMES then none
  else
    match maxByCount b.buf (keysInOrder b.buf) with
    | none => none                 -- `counts` is empty
    | some best =>
        if (countOf b.buf best : ℚ) / (b.buf.length : ℚ) ≥ GESTURE_CONFIRM_RATIO
        then some best else none

/-- The confirm/clear block at the end of `GestureBuffer.push`: evaluate
`_get_confirmed` on the updated window; a confirmation sets `confirmed`
and the skip hint; otherwise a no-detection streak of at least
` GESTURE_CLEAR_FRAMES` clears both; otherwise nothing changes. -/
def GestureBuffer.applyRules (b1 : GestureBuffer) : GestureBuffer :=
  match b1.getConfirmed with
  | some g => { b1 with confirmed := some g, skip_rotation := true }
  | none =>
      if b1.no_hand_streak ≥ GESTURE_CLEAR_FRAMES then
        { b1 with confirmed := none, skip_rotation := false }
      else b1

/-- `GestureBuffer.push`.  The detector supplies `nx`, `ny` both set or
both `none`; the source stores `nx, ny` whenever `nx` is present. -/
def GestureBuffer.push (b : GestureBuffer) (raw : GestureName)
    (nx ny : Option ℚ) : GestureBuffer :=
  let streak := if raw = none then b.no_hand_streak + 1 else 0
  let lnx := if raw ≠ none ∧ nx.isSome then nx.getD b.last_nx else b.last_nx
  let lny := if raw ≠ none ∧ nx.isSome then ny.getD b.last_ny else b.last_ny
  let buf1 := b.buf ++ [raw]
  let buf2 := if buf1.length > GESTURE_CONFIRM_FRAMES then buf1.tail else buf1
  GestureBuffer.applyRules
    { b with buf := buf2, no_hand_streak := streak, last_nx := lnx, last_ny := lny }

/-- The value `push` returns in the source: the current confirmed gesture. -/
def GestureBuffer.pushRet (b : GestureBuffer) (raw : GestureName)
    (nx ny : Option ℚ) : GestureName :=
  (b.push raw nx ny).confirmed

/-- Fold a sequence of raw detections through the buffer. -/
def pushAll (b : GestureBuffer) : List (GestureName × Option ℚ × Option ℚ) → GestureBuffer
  | [] => b
  | (g, nx, ny) :: rest => pushAll (b.push g nx ny) rest

/-- Push a sequence of raw labels (no position updates). -/
def pushLabels (b : GestureBuffer) : List GestureName → GestureBuffer
  | [] => b
  | g :: rest => pushLabels (b.push g none none) rest

/-! ## Gesture detector (src/gesture_detector.py)

`Detection = tuple[GestureName, float | None, float | None]`.  The
MediaPipe inference inside `detect_at_angle` is abstracted as an input
function `det : angle → Detection`; `process_frame` only sequences calls
to it and inspects the returned gesture. -/

abbrev Detection := Option String × Option ℚ × Option ℚ

/-- `_unrotate`: map a normalized position detected at rotation `angle`
back into the unrotated frame's coordinates. -/
def unrotate (nx ny : ℚ) (angle : ℕ) : ℚ × ℚ :=
  if angle = 0 then (nx, ny)
  else if angle = 90 then (ny, 1 - nx)
  else if angle = 180 then (1 - nx, 1 - ny)
  else if angle = 270 then (1 - ny, nx)
  else (nx, ny)

/-- Python truthiness of the gesture component: `if g:` is false for
`None` and for the empty string. -/
def truthy : Option String → Bool
  | none => false
  | some s => !(s == "")

/-- The `for angle in angles: ... if g: return` loop of
`GestureDetector.process_frame`, over an explicit angle list. -/
def detectLoop (det : ℕ → Detection) : List ℕ → Detection
  | [] => (none, none, none)
  | a :: rest =>
      let r := det a
      if truthy r.1 then r else detectLoop det rest

/-- `GestureDetector.process_frame`: with `skip_rotation=True`, probe
angle 0 first and then the remaining angles of ` ROTATION_ANGLES`;
otherwise probe ` ROTATION_ANGLES` in order.  Stops at the first truthy
gesture. -/
def processFrame (det : ℕ → Detection) (skip_rotation : Bool) : Detection :=
  if skip_rotation then
    let r := det 0
    if truthy r.1 then r
    else detectLoop det (ROTATION_ANGLES.filter (fun a => a ≠ 0))
  else detectLoop det ROTATION_ANGLES

/-! ## Animation clips and the player (src/animation.py) -/

/-- `AnimFrame`: a decoded clip frame.  The pixel buffer is abstracted as
a natural-number handle; `duration` is in milliseconds (`int` in the
source). -/
structure AnimFrame where
  bgra     : ℕ
  duration : ℤ
deriving DecidableEq, Repr

instance : Inhabited AnimFrame := ⟨⟨0, 0⟩⟩

structure WebpAnimation where
  frames : List AnimFrame
deriving DecidableEq, Repr

/-- One iteration of the decode loop in `WebpAnimation.load`:
`.error` means the iteration raised (PIL seek/convert failure);
`.ok (dOpt, px)` means a frame decoded, with `dOpt` the optional
`duration` metadata (`img.info.get("duration", 50)` defaults it to 50). -/
abbrev DecodeStep := Except Unit (Option ℤ × ℕ)

/-- The `for i in range(n_frames)` body of `WebpAnimation.load`: frames
are appended until the first exception, which aborts the loop (the
`except` clause swallows it), keeping the frames appended so far. -/
def loadLoop : List DecodeStep → List AnimFrame
  | [] => []
  | .error _ :: _ => []
  | .ok (dOpt, px) :: rest => ⟨px, dOpt.getD 50⟩ :: loadLoop rest

/-- `WebpAnimation.load`: `openRes = none` models `Image.open` itself
raising (caught, empty clip returned); `some steps` models a successful
open followed by the per-frame decode loop. -/
def WebpAnimation.load (openRes : Option (List DecodeStep)) : WebpAnimation :=
  match openRes with
  | none => ⟨[]⟩
  | some steps => ⟨loadLoop steps⟩

inductive PlayerState where
  | IDLE
  | PLAYING
  | FADING
deriving DecidableEq, Repr

structure AnimPlayer where
  anim     : WebpAnimation
  frame_ms : ℚ
  state    : PlayerState
  idx      : ℕ
  ms_accum : ℚ
  fade_cnt : ℕ
  alpha    : ℚ
deriving DecidableEq, Repr

/-- `AnimPlayer.__init__`. -/
def AnimPlayer.init (animation : WebpAnimation) (fps : ℚ) : AnimPlayer :=
  ⟨animation, 1000 / max fps 1, .IDLE, 0, 0, 0, 1⟩

/-- The `while True` frame-advance loop of `AnimPlayer._advance`, with
explicit fuel: `some (idx, acc)` is the state at the `break`; `none`
means the fuel ran out before the loop broke (the source loop has run
that many iterations without terminating). -/
def advanceLoop : ℕ → List AnimFrame → ℕ → ℚ → Option (ℕ × ℚ)
  | 0, _, _, _ => none
  | fuel + 1, frames, idx, acc =>
      let dur : ℚ := ((frames.getD idx default).duration : ℚ)
      if acc < dur then some (idx, acc)
      else advanceLoop fuel frames ((idx + 1) % frames.length) (acc - dur)

/-- Fuel that suffices for `advanceLoop` whenever the clip's total
duration is positive (proved below): each full wrap of the clip lowers
the accumulator by the total duration. -/
def advanceFuel (frames : List AnimFrame) (acc : ℚ) : ℕ :=
  let D : ℤ := (frames.map AnimFrame.duration).sum
  if 0 < D then frames.length * (⌈acc / (D : ℚ)⌉₊ + 2) else 1

/-- `AnimPlayer._advance`.  When the loop would not terminate (possible
only for clips of non-positive total duration) the fuel cutoff leaves
`idx` unchanged and keeps the incremented accumulator. -/
def AnimPlayer._advance (p : AnimPlayer) : AnimPlayer :=
  let acc := p.ms_accum + p.frame_ms
  match advanceLoop (advanceFuel p.anim.frames acc) p.anim.frames p.idx acc with
  | some (i, a) => { p with idx := i, ms_accum := a }
  | none => { p with ms_accum := acc }

/-- `AnimPlayer.update`: returns the mutated player and the returned
alpha value. -/
def AnimPlayer.update (p : AnimPlayer) (active : Bool) : AnimPlayer × ℚ :=
  if p.anim.frames = [] then (p, 0)
  else
    let p1 :=
      if active then
        let p0 := if p.state = .IDLE then { p with idx := 0, ms_accum := 0 } else p
        { p0 with state := PlayerState.PLAYING, fade_cnt := 0, alpha := 1 }
      else p
    if p1.state = .PLAYING then
      let p2 := p1._advance
      (p2, p2.alpha)
    else if p1.state = .FADING then
      let cnt := p1.fade_cnt + 1
      let a := max 0 (1 - (cnt : ℚ) / (ANIM_FADE_FRAMES : ℚ))
      let st := if a ≤ 0 then PlayerState.IDLE else p1.state
      ({ p1 with fade_cnt := cnt, alpha := a, state := st }, a)
    else (p1, 0)

/-- `AnimPlayer.start_fade`. -/
def AnimPlayer.start_fade (p : AnimPlayer) : AnimPlayer :=
  if p.state = .PLAYING then { p with state := .FADING, fade_cnt := 0, alpha := 1 }
  else p

/-- `AnimPlayer.current_frame`. -/
def AnimPlayer.current_frame (p : AnimPlayer) : Option ℕ :=
  if p.anim.frames = [] then none
  else some ((p.anim.frames.getD p.idx default).bgra)

/-- Iterate `update active` for a list of `active` flags, keeping the
player. -/
def runUpd : AnimPlayer → List Bool → AnimPlayer
  | p, [] => p
  | p, a :: rest => runUpd (p.update a).1 rest

/-- Iterate `update false` a fixed number of times (the k-th call is the
outermost one). -/
def iterUpd : ℕ → AnimPlayer → AnimPlayer
  | 0, p => p
  | k + 1, p => ((iterUpd k p).update false).1

/-- A player sitting in the Fading state with fade counter 0 and alpha 1,
exactly as `start_fade` leaves a Playing player. -/
def fadingPlayer (frames : List AnimFrame) (fms : ℚ) (idx : ℕ) (accum : ℚ) : AnimPlayer :=
  ⟨⟨frames⟩, fms, .FADING, idx, accum, 0, 1⟩

/-- The effect of `AnimOverlay.update_and_draw` on the player of one
gesture label: `start_fade` when the player is Playing and the raw
gesture differs from the label, then `update(confirmed_gesture == name)`.
Returns the mutated player and the alpha recorded for the label. -/
def overlayPlayerStep (name : String) (raw confirmed_gesture : Option String)
    (p : AnimPlayer) : AnimPlayer × ℚ :=
  let p1 := if p.state = .PLAYING ∧ raw ≠ some name then p.start_fade else p
  p1.update (confirmed_gesture == some name)

/-! ## Alpha blending (overlay_bgra in src/animation.py)

Pixel buffers become functions from integer coordinates (row, column) and
channel to values: the destination `bg` holds uint8 values (naturals,
hypotheses bound them by 255), the cached resized overlay planes `bgr_f`
and `alpha3` hold float32 values (rationals).  The cv2 resize producing
those planes is outside the model; `overlay_bgra` is embedded from the
cache lookup onward, exactly the arithmetic of lines 160-189. -/

structure ClipBounds where
  sx1 : ℤ
  sy1 : ℤ
  ex1 : ℤ
  ey1 : ℤ
  ex2 : ℤ
  ey2 : ℤ

/-- The destination/source rectangle computation of `overlay_bgra`
(`s = max(2, size)`, `x1 = cx - s // 2`, clipping to the frame bounds).
`s ≥ 2 ≥ 0`, so Lean's integer division matches Python's floor division
on `s / 2`. -/
def clipBounds (h_bg w_bg cx cy size : ℤ) : ClipBounds :=
  let s := max 2 size
  let x1 := cx - s / 2
  let y1 := cy - s / 2
  let x2 := x1 + s
  let y2 := y1 + s
  ⟨max 0 (-x1), max 0 (-y1), max 0 x1, max 0 y1, min w_bg x2, min h_bg y2⟩

/-- `np.clip(v, 0, 255)` followed by `astype(np.uint8)`: after the clip
the value is in `[0, 255]`, where the uint8 cast is plain truncation. -/
def toU8 (v : ℚ) : ℕ :=
  (⌊min 255 (max 0 v)⌋).toNat

/-- The effective per-pixel alpha: the precomputed plane value, scaled by
the player's fade alpha unless that multiplier is exactly 1 (the source
skips the scalar multiplication in that case). -/
def blendAlpha (alpha3 : ℤ → ℤ → ℚ) (alpha_mul : ℚ) (sy sx : ℤ) : ℚ :=
  if alpha_mul ≠ 1 then alpha3 sy sx * alpha_mul else alpha3 sy sx

/-- `overlay_bgra`: blend the (already resized) overlay planes onto the
destination, in place; the result is the new destination.  `bgr_f` and
`alpha3` are indexed by source-rectangle coordinates, `bg` by frame
coordinates, channels by `Fin 3`. -/
def overlay_bgra (h_bg w_bg : ℤ) (bg : ℤ → ℤ → Fin 3 → ℕ)
    (bgr_f : ℤ → ℤ → Fin 3 → ℚ) (alpha3 : ℤ → ℤ → ℚ)
    (cx cy size : ℤ) (alpha_mul : ℚ) : ℤ → ℤ → Fin 3 → ℕ := fun y x ch =>
  let c := clipBounds h_bg w_bg cx cy size
  if c.ex2 ≤ c.ex1 ∨ c.ey2 ≤ c.ey1 then bg y x ch
  else if c.ey1 ≤ y ∧ y < c.ey2 ∧ c.ex1 ≤ x ∧ x < c.ex2 then
    toU8 (bgr_f (c.sy1 + (y - c.ey1)) (c.sx1 + (x - c.ex1)) ch *
        blendAlpha alpha3 alpha_mul (c.sy1 + (y - c.ey1)) (c.sx1 + (x - c.ex1)) +
      (bg y x ch : ℚ) *
        (1 - blendAlpha alpha3 alpha_mul (c.sy1 + (y - c.ey1)) (c.sx1 + (x - c.ex1))))
  else bg y x ch

/-! ## The processor stage (src/video_processor.py)

`_processor_thread`'s per-frame decision logic.  The detector is
abstracted: each dequeued frame comes with the `Detection` the detector
would return for it.  Queues, the watermark and the end marker are
outside the claims modelled here. -/

def DETECTION_SKIP_AFTER_CONFIRM : ℕ := 2

structure ProcState where
  buf          : GestureBuffer
  skip_counter : ℕ
  last_raw_g   : Option String
deriving DecidableEq, Repr

def ProcState.init : ProcState := ⟨GestureBuffer.init, 0, none⟩

/-- One iteration of the `while True` loop of `_processor_thread` for a
dequeued frame whose detection result would be `det`.  Returns the new
state, the `confirmed` value handed to `update_and_draw`, and whether
`GestureBuffer.push` was called on this frame. -/
def procStep (s : ProcState) (det : Detection) : ProcState × Option String × Bool :=
  let sd :=
    if s.buf.confirmed ≠ none ∧ 0 < DETECTION_SKIP_AFTER_CONFIRM then
      if s.skip_counter < DETECTION_SKIP_AFTER_CONFIRM then (false, s.skip_counter + 1)
      else (true, 0)
    else (true, s.skip_counter)
  if sd.1 then
    let buf1 := s.buf.push det.1 det.2.1 det.2.2
    (⟨buf1, sd.2, det.1⟩, buf1.confirmed, true)
  else
    (⟨s.buf, sd.2, s.last_raw_g⟩, s.buf.confirmed, false)

/-- Run the processor over a list of dequeued frames; returns the final
state, the number of `GestureBuffer.push` calls and the number of frames
processed. -/
def procRun : ProcState → List Detection → ProcState × ℕ × ℕ
  | s, [] => (s, 0, 0)
  | s, d :: ds =>
      let r := procStep s d
      let rest := procRun r.1 ds
      (rest.1, rest.2.1 + (if r.2.2 then 1 else 0), rest.2.2 + 1)

/-- A concrete player used for counterexamples and witnesses: a one-frame
clip (duration 50 ms), currently Playing at full alpha, at 30 fps. -/
def cexPlayer : AnimPlayer :=
  ⟨⟨[⟨0, 50⟩]⟩, 100 / 3, .PLAYING, 0, 0, 0, 1⟩

/-- A concrete per-frame detection: a "like" at screen center. -/
def likeDet : Detection := (some "like", some (1 / 2), some (1 / 2))

/-! ## Theorems -/

attribute [local semireducible] Rat.mul Rat.inv Rat.add Rat.sub Rat.ofScientific

set_option maxRecDepth 100000

/-- Preservation of the skip-rotation/confirmed coupling by the
confirm/clear rules. -/
theorem applyRules_skip_iff_confirmed (b1 : GestureBuffer)
    (h : b1.skip_rotation = true ↔ b1.confirmed ≠ none) :
    ((b1.applyRules).skip_rotation = true ↔ (b1.applyRules).confirmed ≠ none) := by
  unfold GestureBuffer.applyRules
  cases hg : b1.getConfirmed with
  | some g => simp
  | none =>
      by_cases hs : b1.no_hand_streak ≥ GESTURE_CLEAR_FRAMES
      · simp [hs]
      · simpa [hs] using h

/-- Preservation of the skip-rotation/confirmed coupling by one `push`. -/
theorem push_skip_iff_confirmed (b : GestureBuffer) (r : GestureName) (nx ny : Option ℚ)
    (h : b.skip_rotation = true ↔ b.confirmed ≠ none) :
    ((b.push r nx ny).skip_rotation = true ↔ (b.push r nx ny).confirmed ≠ none) := by
  unfold GestureBuffer.push
  exact applyRules_skip_iff_confirmed _ (by simpa using h)

/-- Preservation of the coupling by any sequence of pushes. -/
theorem pushAll_skip_iff_confirmed :
    ∀ (l : List (GestureName × Option ℚ × Option ℚ)) (b : GestureBuffer),
      (b.skip_rotation = true ↔ b.confirmed ≠ none) →
      ((pushAll b l).skip_rotation = true ↔ (pushAll b l).confirmed ≠ none)
  | [], _, h => h
  | (g, nx, ny) :: rest, b, h =>
      pushAll_skip_iff_confirmed rest (b.push g nx ny) (push_skip_iff_confirmed b g nx ny h)

/-- C1: with ConfirmFrames=10, ClearFrames=6, ConfirmRatio=0.6, pushing 6
consecutive "like" leaves nothing confirmed (window not full); 4 more
"like" confirm "like"; after confirmation any gap of fewer than 6
consecutive null pushes keeps "like" confirmed, and a gap of exactly 6
nulls clears it. -/
theorem C1_debounce_concrete_example :
    (pushLabels GestureBuffer.init (List.replicate 6 (some "like"))).confirmed = none ∧
    (pushLabels (pushLabels GestureBuffer.init (List.replicate 6 (some "like")))
      (List.replicate 4 (some "like"))).confirmed = some "like" ∧
    (∀ k, k < 6 →
      (pushLabels (pushLabels (pushLabels GestureBuffer.init (List.replicate 6 (some "like")))
        (List.replicate 4 (some "like"))) (List.replicate k none)).confirmed = some "like") ∧
    (pushLabels (pushLabels (pushLabels GestureBuffer.init (List.replicate 6 (some "like")))
      (List.replicate 4 (some "like"))) (List.replicate 6 none)).confirmed = none :=
  ⟨by decide, by decide, by decide, by decide⟩

/-- C8: the skip-rotation hint is set exactly while a gesture is
confirmed — in the initial state and after every sequence of pushes,
`skip_rotation = true ↔ confirmed ≠ none`. -/
theorem C8_skip_rotation_invariant :
    ∀ inputs : List (GestureName × Option ℚ × Option ℚ),
      ((pushAll GestureBuffer.init inputs).skip_rotation = true ↔
        (pushAll GestureBuffer.init inputs).confirmed ≠ none) := by
  intro inputs
  exact pushAll_skip_iff_confirmed inputs GestureBuffer.init (by simp [GestureBuffer.init])

/-- C6: the classifier maps a position detected at rotation angle back
into the unrotated frame exactly by the four stated formulas. -/
theorem C6_unrotate_formulas :
    ∀ nx ny : ℚ,
      unrotate nx ny 0 = (nx, ny) ∧
      unrotate nx ny 90 = (ny, 1 - nx) ∧
      unrotate nx ny 180 = (1 - nx, 1 - ny) ∧
      unrotate nx ny 270 = (1 - ny, nx) := by
  intro nx ny
  refine ⟨rfl, rfl, rfl, rfl⟩

/-- C9: the skip-rotation hint changes only the code path, not the
output — both paths probe angles 0°, 90°, 180°, 270° in the same
effective order and stop at the first success, so `process_frame`
returns the same detection triple for every detector behaviour. -/
theorem C9_process_frame_hint_independent :
    ∀ det : ℕ → Detection, processFrame det true = processFrame det false := by
  intro det
  have hf : (ROTATION_ANGLES.filter (fun a => a ≠ 0)) = [90, 180, 270] := by decide
  simp only [processFrame, hf, ROTATION_ANGLES]
  cases h : truthy (det 0).1 <;> simp [detectLoop, h]

/-- `_advance` touches only the frame index and the time accumulator. -/
theorem _advance_preserves (p : AnimPlayer) :
    (p._advance).state = p.state ∧ (p._advance).alpha = p.alpha ∧
    (p._advance).anim = p.anim ∧ (p._advance).fade_cnt = p.fade_cnt := by
  unfold AnimPlayer._advance
  cases h : advanceLoop (advanceFuel p.anim.frames (p.ms_accum + p.frame_ms))
      p.anim.frames p.idx (p.ms_accum + p.frame_ms) with
  | none => simp [h]
  | some v => cases v with | mk i a => simp [h]

/-- `update false` on a Fading player with a non-empty clip: the fade
counter increments and alpha follows the linear ramp. -/
theorem update_false_fading (p : AnimPlayer) (hne : p.anim.frames ≠ [])
    (hst : p.state = .FADING) :
    p.update false =
      ({ p with fade_cnt := p.fade_cnt + 1,
                alpha := max 0 (1 - ((p.fade_cnt + 1 : ℕ) : ℚ) / 15),
                state := if max 0 (1 - ((p.fade_cnt + 1 : ℕ) : ℚ) / 15) ≤ 0 then
                    PlayerState.IDLE else PlayerState.FADING },
        max 0 (1 - ((p.fade_cnt + 1 : ℕ) : ℚ) / 15)) := by
  unfold AnimPlayer.update
  simp [hne, hst, ANIM_FADE_FRAMES]

/-- `update true` on a non-Idle player with a non-empty clip: the player
is (re)set to Playing at full alpha, whatever state it was in. -/
theorem update_true_nonidle (p : AnimPlayer) (hne : p.anim.frames ≠ [])
    (hst : p.state ≠ .IDLE) :
    (p.update true).1.state = .PLAYING ∧ (p.update true).1.alpha = 1 ∧
    (p.update true).2 = 1 := by
  have h1 := _advance_preserves { p with state := PlayerState.PLAYING, fade_cnt := 0, alpha := 1 }
  unfold AnimPlayer.update
  simp [hne, hst, h1.1, h1.2.1]

/-- The fade invariant: for `k ≤ 14` calls of `update false`, a freshly
started fade is still Fading with counter `k` and alpha `1 - k/15`. -/
theorem iterUpd_fading_invariant (frames : List AnimFrame) (fms accum : ℚ) (idx : ℕ)
    (hne : frames ≠ []) :
    ∀ k, k ≤ 14 →
      iterUpd k (fadingPlayer frames fms idx accum) =
        ⟨⟨frames⟩, fms, .FADING, idx, accum, k, 1 - (k : ℚ) / 15⟩ := by
  intro k
  induction k with
  | zero => intro _; simp [iterUpd, fadingPlayer]
  | succ n ih =>
      intro hk
      have hrec := ih (by omega)
      have hx : (0 : ℚ) < 1 - ((n + 1 : ℕ) : ℚ) / 15 := by
        have hn13 : (n : ℚ) ≤ 13 := by exact_mod_cast (by omega : n ≤ 13)
        push_cast
        linarith
      have hmax : max 0 (1 - ((n + 1 : ℕ) : ℚ) / 15) = 1 - ((n + 1 : ℕ) : ℚ) / 15 :=
        max_eq_right (le_of_lt hx)
      have hpos : ¬ (max 0 (1 - ((n + 1 : ℕ) : ℚ) / 15) ≤ 0) := by
        rw [hmax]
        exact not_le.mpr hx
      have hstep := update_false_fading ⟨⟨frames⟩, fms, .FADING, idx, accum, n, 1 - (n : ℚ) / 15⟩
        (by simpa using hne) rfl
      show ((iterUpd n (fadingPlayer frames fms idx accum)).update false).1 = _
      rw [hrec, hstep]
      simp [hmax, if_neg hpos]
      have hn13 : (n : ℚ) ≤ 13 := by exact_mod_cast (by omega : n ≤ 13)
      constructor <;> linarith

/-- C4: a Fading player with counter 0 and alpha 1 (as `start_fade`
leaves it) fades linearly in the number of `update false` calls,
independently of the clip's frame durations: the k-th call yields alpha
`max 0 (1 - k/15)`, the state stays Fading before call 15, and call 15
reaches alpha 0 and Idle. -/
theorem C4_fade_linear (frames : List AnimFrame) (fms accum : ℚ) (idx : ℕ)
    (hne : frames ≠ []) :
    (∀ k, 1 ≤ k → k ≤ 15 →
        (iterUpd k (fadingPlayer frames fms idx accum)).alpha = max 0 (1 - (k : ℚ) / 15)) ∧
    (∀ k, k < 15 → (iterUpd k (fadingPlayer frames fms idx accum)).state = .FADING) ∧
    (iterUpd 15 (fadingPlayer frames fms idx accum)).alpha = 0 ∧
    (iterUpd 15 (fadingPlayer frames fms idx accum)).state = .IDLE := by
  have hstep15 := update_false_fading
    ⟨⟨frames⟩, fms, .FADING, idx, accum, 14, 1 - ((14 : ℕ) : ℚ) / 15⟩
    (by simpa using hne) rfl
  have h15 : iterUpd 15 (fadingPlayer frames fms idx accum) =
      (( ⟨⟨frames⟩, fms, .FADING, idx, accum, 14, 1 - ((14 : ℕ) : ℚ) / 15⟩ : AnimPlayer).update
        false).1 := by
    show ((iterUpd 14 (fadingPlayer frames fms idx accum)).update false).1 = _
    rw [iterUpd_fading_invariant frames fms accum idx hne 14 (by omega)]
  refine ⟨?_, ?_, ?_, ?_⟩
  · intro k hk1 hk15
    obtain ⟨n, rfl⟩ : ∃ n, k = n + 1 := ⟨k - 1, by omega⟩
    have hn : n ≤ 14 := by omega
    have hrec := iterUpd_fading_invariant frames fms accum idx hne n hn
    have hstep := update_false_fading ⟨⟨frames⟩, fms, .FADING, idx, accum, n, 1 - (n : ℚ) / 15⟩
      (by simpa using hne) rfl
    show (((iterUpd n (fadingPlayer frames fms idx accum)).update false).1).alpha = _
    rw [hrec, hstep]
  · intro k hk
    rw [iterUpd_fading_invariant frames fms accum idx hne k (by omega)]
  · rw [h15, hstep15]
    norm_num
  · rw [h15, hstep15]
    norm_num

/-- C4 witness: a concrete one-frame clip with duration 0 reaches alpha 0
and Idle after exactly 15 fade updates, and alpha 10/15 after 5. -/
theorem C4_fade_linear_witness :
    (iterUpd 5 (fadingPlayer [⟨0, 0⟩] (100 / 3) 0 0)).alpha = max 0 (1 - (5 : ℚ) / 15) ∧
    (iterUpd 15 (fadingPlayer [⟨0, 0⟩] (100 / 3) 0 0)).alpha = 0 ∧
    (iterUpd 15 (fadingPlayer [⟨0, 0⟩] (100 / 3) 0 0)).state = .IDLE :=
  ⟨(C4_fade_linear [⟨0, 0⟩] (100 / 3) 0 0 (by decide)).1 5 (by decide) (by decide),
   (C4_fade_linear [⟨0, 0⟩] (100 / 3) 0 0 (by decide)).2.2.1,
   (C4_fade_linear [⟨0, 0⟩] (100 / 3) 0 0 (by decide)).2.2.2⟩

/-- C2 counterexample: a Playing player with a non-empty clip, fed one
`update_and_draw` step in which the raw gesture ("heart") differs from
its label ("like") while the confirmation buffer still reports "like"
confirmed, is still in the Playing state at full alpha afterwards — the
`start_fade` triggered by the raw-signal loss is immediately cancelled by
`update(confirmed_gesture == name)` with an active flag. -/
theorem C2_counterexample :
    cexPlayer.anim.frames ≠ [] ∧ cexPlayer.state = .PLAYING ∧
    (some "heart" : Option String) ≠ some "like" ∧
    (overlayPlayerStep "like" (some "heart") (some "like") cexPlayer).1.state = .PLAYING ∧
    (overlayPlayerStep "like" (some "heart") (some "like") cexPlayer).1.alpha = 1 ∧
    (overlayPlayerStep "like" (some "heart") (some "like") cexPlayer).2 = 1 :=
  ⟨by decide, rfl, by decide, by decide, by decide, by decide⟩

/-- C2 (amended): when the raw signal for a Playing player's label
disappears, `update_and_draw` starts a fade, but the subsequent
`update(confirmed_gesture == name)` cancels it whenever the buffer still
reports the label confirmed — the player ends the call Playing at alpha
1.  Only when the confirmed gesture also differs from the label does the
player end the call Fading with alpha decreased to 1 - 1/15. -/
theorem C2_raw_fade_cancelled_while_confirmed (p : AnimPlayer) (name : String)
    (raw confirmed_gesture : Option String)
    (hne : p.anim.frames ≠ []) (hst : p.state = .PLAYING) (hraw : raw ≠ some name) :
    (confirmed_gesture = some name →
        (overlayPlayerStep name raw confirmed_gesture p).1.state = .PLAYING ∧
        (overlayPlayerStep name raw confirmed_gesture p).1.alpha = 1) ∧
    (confirmed_gesture ≠ some name →
        (overlayPlayerStep name raw confirmed_gesture p).1.state = .FADING ∧
        (overlayPlayerStep name raw confirmed_gesture p).1.alpha = 1 - 1 / 15) := by
  have hsf : p.start_fade = { p with state := .FADING, fade_cnt := 0, alpha := 1 } := by
    unfold AnimPlayer.start_fade
    simp [hst]
  constructor
  · intro hc
    have hbeq : (confirmed_gesture == some name) = true := by simp [hc]
    have hup := update_true_nonidle { p with state := PlayerState.FADING, fade_cnt := 0, alpha := 1 }
      (by simpa using hne) (by simp)
    unfold overlayPlayerStep
    simp only [hst, hraw, hbeq, if_pos, and_true, true_and, ne_eq, not_false_iff, hsf]
    exact ⟨hup.1, hup.2.1⟩
  · intro hc
    have hbeq : (confirmed_gesture == some name) = false := by
      simpa using hc
    have hup := update_false_fading { p with state := PlayerState.FADING, fade_cnt := 0, alpha := 1 }
      (by simpa using hne) rfl
    unfold overlayPlayerStep
    simp only [hst, hraw, hbeq, and_true, true_and, ne_eq, not_false_iff, hsf, if_true]
    rw [hup]
    norm_num

/-- C2 witness: the amended theorem applied to the concrete Playing
player with raw "heart" and confirmed "like". -/
theorem C2_raw_fade_cancelled_witness :
    (overlayPlayerStep "like" (some "heart") (some "like") cexPlayer).1.state = .PLAYING ∧
    (overlayPlayerStep "like" (some "heart") (some "like") cexPlayer).1.alpha = 1 :=
  (C2_raw_fade_cancelled_while_confirmed cexPlayer "like" (some "heart") (some "like")
    (by decide) rfl (by decide)).1 rfl

/-- C3 counterexample: eleven frames that each detect "like" produce only
ten `GestureBuffer.push` calls — once the tenth push confirms "like", the
eleventh frame skips full classification and the processor reads
`buf.confirmed` without pushing. -/
theorem C3_counterexample :
    (procRun ProcState.init (List.replicate 11 likeDet)).2.1 = 10 ∧
    (procRun ProcState.init (List.replicate 11 likeDet)).2.2 = 11 ∧
    (procRun ProcState.init (List.replicate 11 likeDet)).2.1 ≠
      (procRun ProcState.init (List.replicate 11 likeDet)).2.2 :=
  ⟨by decide, by decide, by decide⟩

/-- C3 (amended): a result is produced for every frame the processor
dequeues, but `GestureBuffer.push` is called only on frames where
detection runs: the push count never exceeds the frame count, a skipped
frame (which can occur only while a gesture is confirmed) leaves the
buffer untouched and reuses its current confirmed label as the frame's
result, and a detected frame pushes the raw detection. -/
theorem C3_push_only_on_detected_frames :
    (∀ (s : ProcState) (ds : List Detection),
        (procRun s ds).2.1 ≤ (procRun s ds).2.2) ∧
    (∀ (s : ProcState) (d : Detection),
        (procStep s d).2.2 = false →
          (procStep s d).1.buf = s.buf ∧
          (procStep s d).2.1 = s.buf.confirmed ∧
          s.buf.confirmed ≠ none) ∧
    (∀ (s : ProcState) (d : Detection),
        (procStep s d).2.2 = true →
          (procStep s d).1.buf = s.buf.push d.1 d.2.1 d.2.2 ∧
          (procStep s d).2.1 = (s.buf.push d.1 d.2.1 d.2.2).confirmed) := by
  refine ⟨?_, ?_, ?_⟩
  · intro s ds
    induction ds generalizing s with
    | nil => simp [procRun]
    | cons d rest ih =>
        have h := ih (procStep s d).1
        by_cases hp : (procStep s d).2.2 = true <;> simp [procRun, hp] <;> omega
  · intro s d hskip
    by_cases hc : s.buf.confirmed ≠ none ∧ 0 < DETECTION_SKIP_AFTER_CONFIRM
    · by_cases hk : s.skip_counter < DETECTION_SKIP_AFTER_CONFIRM
      · exact ⟨by simp [procStep, hc, hk], by simp [procStep, hc, hk], hc.1⟩
      · exfalso
        simp [procStep, hc, hk] at hskip
    · exfalso
      simp [procStep, hc] at hskip
  · intro s d hdet
    by_cases hc : s.buf.confirmed ≠ none ∧ 0 < DETECTION_SKIP_AFTER_CONFIRM
    · by_cases hk : s.skip_counter < DETECTION_SKIP_AFTER_CONFIRM
      · exfalso
        simp [procStep, hc, hk] at hdet
      · exact ⟨by simp [procStep, hc, hk], by simp [procStep, hc, hk]⟩
    · exact ⟨by simp [procStep, hc], by simp [procStep, hc]⟩

/-- `update` on a player whose clip is empty changes nothing and returns
alpha 0. -/
theorem update_empty_clip (p : AnimPlayer) (h : p.anim.frames = []) (a : Bool) :
    p.update a = (p, 0) := by
  unfold AnimPlayer.update
  simp [h]

/-- Any sequence of updates on a player whose clip is empty leaves it
unchanged. -/
theorem runUpd_empty_clip (p : AnimPlayer) (h : p.anim.frames = []) :
    ∀ actives : List Bool, runUpd p actives = p := by
  intro actives
  induction actives with
  | nil => rfl
  | cons a rest ih =>
      show runUpd (p.update a).1 rest = p
      rw [update_empty_clip p h a]
      exact ih

/-- The decode loop keeps the frames decoded before the first error. -/
theorem loadLoop_stops_at_error :
    ∀ (pre : List DecodeStep) (e : Unit) (post : List DecodeStep),
      (∀ s ∈ pre, ∃ v, s = Except.ok v) →
      loadLoop (pre ++ Except.error e :: post) = loadLoop pre := by
  intro pre e post hok
  induction pre with
  | nil => rfl
  | cons s rest ih =>
      obtain ⟨v, rfl⟩ := hok s (by simp)
      obtain ⟨dOpt, px⟩ := v
      show loadLoop (Except.ok (dOpt, px) :: (rest ++ Except.error e :: post)) = _
      unfold loadLoop
      rw [ih (fun s hs => hok s (by simp [hs]))]

/-- C7 counterexample: a decode trace in which the file opens, one frame
decodes, and the second frame raises yields a NON-empty frame sequence —
the caught mid-clip failure keeps the frames appended before it, so "on
any load failure returns an empty frame sequence" fails on this input. -/
theorem C7_counterexample :
    (WebpAnimation.load (some [Except.ok (some 50, 1), Except.error ()])).frames =
      [⟨1, 50⟩] ∧
    (WebpAnimation.load (some [Except.ok (some 50, 1), Except.error ()])).frames ≠ [] :=
  ⟨rfl, by decide⟩

/-- C7 (amended): clip loading is total (exceptions are modelled as
caught decode outcomes): a failed open yields an empty clip, a mid-clip
decode failure yields exactly the frames decoded before it (possibly
non-empty), and a player over an empty clip never leaves Idle — after any
sequence of updates its state is Idle, its current frame is `none` and
every update returns alpha 0 — so the gesture's overlay is disabled
without aborting the job. -/
theorem C7_load_failure_and_idle_player :
    (WebpAnimation.load none).frames = [] ∧
    (∀ (pre : List DecodeStep) (e : Unit) (post : List DecodeStep),
        (∀ s ∈ pre, ∃ v, s = Except.ok v) →
        (WebpAnimation.load (some (pre ++ Except.error e :: post))).frames =
          loadLoop pre) ∧
    (∀ (anim : WebpAnimation) (fps : ℚ) (actives : List Bool),
        anim.frames = [] →
          (runUpd (AnimPlayer.init anim fps) actives).state = .IDLE ∧
          (runUpd (AnimPlayer.init anim fps) actives).current_frame = none ∧
          ∀ a, ((runUpd (AnimPlayer.init anim fps) actives).update a).2 = 0) := by
  refine ⟨rfl, ?_, ?_⟩
  · intro pre e post hok
    exact loadLoop_stops_at_error pre e post hok
  · intro anim fps actives hempty
    have hrun := runUpd_empty_clip (AnimPlayer.init anim fps) (by simpa [AnimPlayer.init]) actives
    rw [hrun]
    refine ⟨rfl, ?_, ?_⟩
    · simp [AnimPlayer.current_frame, AnimPlayer.init, hempty]
    · intro a
      rw [update_empty_clip _ (by simpa [AnimPlayer.init]) a]

/-- The clip-then-uint8-cast is the identity on uint8 pixel values. -/
theorem toU8_natCast (n : ℕ) (h : n ≤ 255) : toU8 (n : ℚ) = n := by
  unfold toU8
  have h0 : (0 : ℚ) ≤ (n : ℚ) := by positivity
  have h255 : (n : ℚ) ≤ 255 := by exact_mod_cast h
  rw [max_eq_right h0, min_eq_right h255, Int.floor_natCast]
  simp

/-- C5: alpha-blending identities of `overlay_bgra`.  (a) A fully
transparent overlay (alpha plane everywhere 0) leaves every destination
pixel unchanged, for every multiplier.  (b) A fully opaque overlay
(alpha plane everywhere 1, i.e. alpha channel 255) with multiplier 1
replaces every destination pixel inside the clipped overlay rectangle by
the overlay's color value there, and leaves pixels outside it
unchanged. -/
theorem C5_blend_identities (h_bg w_bg : ℤ) (bg : ℤ → ℤ → Fin 3 → ℕ)
    (bgr_f : ℤ → ℤ → Fin 3 → ℚ) (alpha3 : ℤ → ℤ → ℚ) (cx cy size : ℤ) (alpha_mul : ℚ)
    (hbg : ∀ y x c, bg y x c ≤ 255) :
    ((∀ y x, alpha3 y x = 0) →
        ∀ y x c, overlay_bgra h_bg w_bg bg bgr_f alpha3 cx cy size alpha_mul y x c = bg y x c) ∧
    (∀ ov : ℤ → ℤ → Fin 3 → ℕ,
        (∀ y x c, ov y x c ≤ 255) →
        (∀ y x c, bgr_f y x c = (ov y x c : ℚ)) →
        (∀ y x, alpha3 y x = 1) →
        alpha_mul = 1 →
        ∀ y x c,
          (((clipBounds h_bg w_bg cx cy size).ey1 ≤ y ∧
              y < (clipBounds h_bg w_bg cx cy size).ey2 ∧
              (clipBounds h_bg w_bg cx cy size).ex1 ≤ x ∧
              x < (clipBounds h_bg w_bg cx cy size).ex2) →
            overlay_bgra h_bg w_bg bg bgr_f alpha3 cx cy size alpha_mul y x c =
              ov ((clipBounds h_bg w_bg cx cy size).sy1 + (y - (clipBounds h_bg w_bg cx cy size).ey1))
                 ((clipBounds h_bg w_bg cx cy size).sx1 + (x - (clipBounds h_bg w_bg cx cy size).ex1)) c) ∧
          (¬((clipBounds h_bg w_bg cx cy size).ey1 ≤ y ∧
              y < (clipBounds h_bg w_bg cx cy size).ey2 ∧
              (clipBounds h_bg w_bg cx cy size).ex1 ≤ x ∧
              x < (clipBounds h_bg w_bg cx cy size).ex2) →
            overlay_bgra h_bg w_bg bg bgr_f alpha3 cx cy size alpha_mul y x c = bg y x c)) := by
  have hA0 : ∀ (sy sx : ℤ), alpha3 sy sx = 0 →
      blendAlpha alpha3 alpha_mul sy sx = 0 := by
    intro sy sx h
    unfold blendAlpha
    split <;> simp [h]
  constructor
  · intro ha y x c
    unfold overlay_bgra
    by_cases hE : (clipBounds h_bg w_bg cx cy size).ex2 ≤ (clipBounds h_bg w_bg cx cy size).ex1 ∨
        (clipBounds h_bg w_bg cx cy size).ey2 ≤ (clipBounds h_bg w_bg cx cy size).ey1
    · simp [hE]
    · by_cases hR : (clipBounds h_bg w_bg cx cy size).ey1 ≤ y ∧
          y < (clipBounds h_bg w_bg cx cy size).ey2 ∧
          (clipBounds h_bg w_bg cx cy size).ex1 ≤ x ∧
          x < (clipBounds h_bg w_bg cx cy size).ex2
      · simp only [hE, hR, ite_true, ite_false, if_true, if_false]
        rw [hA0 _ _ (ha _ _), mul_zero, sub_zero, mul_one, zero_add]
        exact toU8_natCast _ (hbg y x c)
      · simp [hE, hR]
  · intro ov hov hbgr ha hm y x c
    have hA1 : ∀ (sy sx : ℤ), blendAlpha alpha3 alpha_mul sy sx = 1 := by
      intro sy sx
      unfold blendAlpha
      rw [if_neg (by simp [hm])]
      exact ha sy sx
    constructor
    · intro hR
      have hxE : ¬ ((clipBounds h_bg w_bg cx cy size).ex2 ≤ (clipBounds h_bg w_bg cx cy size).ex1 ∨
          (clipBounds h_bg w_bg cx cy size).ey2 ≤ (clipBounds h_bg w_bg cx cy size).ey1) := by
        push_neg
        omega
      unfold overlay_bgra
      simp only [hxE, hR, ite_true, ite_false, if_true, if_false]
      rw [hA1, mul_one, sub_self, mul_zero, add_zero, hbgr]
      exact toU8_natCast _ (hov _ _ c)
    · intro hR
      unfold overlay_bgra
      by_cases hE : (clipBounds h_bg w_bg cx cy size).ex2 ≤ (clipBounds h_bg w_bg cx cy size).ex1 ∨
          (clipBounds h_bg w_bg cx cy size).ey2 ≤ (clipBounds h_bg w_bg cx cy size).ey1
      · simp [hE]
      · simp [hE, hR]

/-- C5 witness: blending a 2×2 fully transparent overlay into a 4×4
frame of value 7 leaves the pixel (1,1) at 7; blending a fully opaque
overlay of value 9 with multiplier 1 replaces it by 9. -/
theorem C5_blend_identities_witness :
    overlay_bgra 4 4 (fun _ _ _ => 7) (fun _ _ _ => 9) (fun _ _ => 0) 1 1 2 (1 / 2) 1 1 0 = 7 ∧
    overlay_bgra 4 4 (fun _ _ _ => 7) (fun _ _ _ => 9) (fun _ _ => 1) 1 1 2 1 1 1 0 = 9 :=
  ⟨(C5_blend_identities 4 4 (fun _ _ _ => 7) (fun _ _ _ => 9) (fun _ _ => 0) 1 1 2 (1 / 2)
      (fun _ _ _ => by norm_num)).1 (fun _ _ => rfl) 1 1 0,
   ((C5_blend_identities 4 4 (fun _ _ _ => 7) (fun _ _ _ => 9) (fun _ _ => 1) 1 1 2 1
      (fun _ _ _ => by norm_num)).2 (fun _ _ _ => 9) (fun _ _ _ => by norm_num)
      (fun _ _ _ => by norm_num) (fun _ _ => rfl) rfl 1 1 0).1 (by decide)⟩

/-- A list of non-positive integers has non-positive sum. -/
theorem sum_nonpos_of_all_nonpos : ∀ (l : List ℤ), (∀ x ∈ l, x ≤ 0) → l.sum ≤ 0
  | [], _ => by simp
  | x :: xs, h => by
      have hrest := sum_nonpos_of_all_nonpos xs (fun y hy => h y (by simp [hy]))
      have hx := h x (by simp)
      simp only [List.sum_cons]
      linarith

/-- A positive total duration forces some frame's duration positive. -/
theorem exists_pos_duration (frames : List AnimFrame)
    (hsum : 0 < (frames.map AnimFrame.duration).sum) :
    ∃ j, j < frames.length ∧ 0 < (frames.getD j default).duration := by
  by_contra h
  push_neg at h
  have hall : ∀ x ∈ frames.map AnimFrame.duration, x ≤ 0 := by
    intro x hx
    obtain ⟨f, hf, rfl⟩ := List.mem_map.mp hx
    obtain ⟨i, hi, rfl⟩ := List.mem_iff_getElem.mp hf
    have := h i hi
    rw [List.getD_eq_getElem frames default hi] at this
    exact this
  exact absurd (sum_nonpos_of_all_nonpos _ hall) (not_le.mpr hsum)

/-- Modular index arithmetic for the walk to the next positive frame. -/
theorem mod_add_mod_left (a t n : ℕ) : (a % n + t) % n = (a + t) % n := by
  conv_rhs => rw [Nat.add_mod]
  rw [Nat.add_mod (a % n) t, Nat.mod_mod a n]

/-- One unfolding step of the advance loop. -/
theorem advanceLoop_succ (fuel : ℕ) (frames : List AnimFrame) (idx : ℕ) (acc : ℚ) :
    advanceLoop (fuel + 1) frames idx acc =
      if acc < ((frames.getD idx default).duration : ℚ) then some (idx, acc)
      else advanceLoop fuel frames ((idx + 1) % frames.length)
        (acc - ((frames.getD idx default).duration : ℚ)) := rfl

/-- Walk lemma: starting at index `i` with the frame of positive duration
`δ` at cyclic distance `t`, the advance loop either breaks within the
walk or hands over a state whose accumulator has dropped by at least `δ`;
the continuation `K` settles the latter. -/
theorem advanceLoop_terminates_of_reach (frames : List AnimFrame) (j : ℕ)
    (hj : j < frames.length)
    (hδpos : 0 < ((frames.getD j default).duration : ℚ))
    (hnn : ∀ i, (0 : ℚ) ≤ ((frames.getD i default).duration : ℚ))
    (acc0 : ℚ)
    (K : ∀ i acc, i < frames.length → 0 ≤ acc →
        acc + ((frames.getD j default).duration : ℚ) ≤ acc0 →
        ∃ fuel, (advanceLoop fuel frames i acc).isSome) :
    ∀ t i acc, i < frames.length → 0 ≤ acc → acc ≤ acc0 →
      (i + t) % frames.length = j →
      ∃ fuel, (advanceLoop fuel frames i acc).isSome := by
  intro t
  induction t with
  | zero =>
      intro i acc hi hacc hle hreach
      have hij : i = j := by
        rwa [Nat.add_zero, Nat.mod_eq_of_lt hi] at hreach
      subst hij
      by_cases hbr : acc < ((frames.getD i default).duration : ℚ)
      · exact ⟨0 + 1, by rw [advanceLoop_succ, if_pos hbr]; rfl⟩
      · push_neg at hbr
        have hn0 : 0 < frames.length := lt_of_le_of_lt (Nat.zero_le _) hi
        have hi' : (i + 1) % frames.length < frames.length := Nat.mod_lt _ hn0
        obtain ⟨fuel, hf⟩ := K ((i + 1) % frames.length)
          (acc - ((frames.getD i default).duration : ℚ)) hi' (by linarith) (by linarith)
        refine ⟨fuel + 1, ?_⟩
        rw [advanceLoop_succ, if_neg (not_lt.2 hbr)]
        exact hf
  | succ t ih =>
      intro i acc hi hacc hle hreach
      by_cases hbr : acc < ((frames.getD i default).duration : ℚ)
      · exact ⟨0 + 1, by rw [advanceLoop_succ, if_pos hbr]; rfl⟩
      · push_neg at hbr
        have hn0 : 0 < frames.length := lt_of_le_of_lt (Nat.zero_le _) hi
        have hi' : (i + 1) % frames.length < frames.length := Nat.mod_lt _ hn0
        have hreach' : ((i + 1) % frames.length + t) % frames.length = j := by
          rw [mod_add_mod_left]
          rw [show i + 1 + t = i + (t + 1) by omega]
          exact hreach
        obtain ⟨fuel, hf⟩ := ih ((i + 1) % frames.length)
          (acc - ((frames.getD i default).duration : ℚ)) hi'
          (by linarith) (by linarith [hnn i]) hreach'
        refine ⟨fuel + 1, ?_⟩
        rw [advanceLoop_succ, if_neg (not_lt.2 hbr)]
        exact hf

/-- Main induction for advance-loop termination: induction on an upper
bound `k` with `acc ≤ k·δ`; every full pass over the clip lowers the
accumulator by at least the positive duration `δ` of frame `j`. -/
theorem advanceLoop_terminates_aux (frames : List AnimFrame) (j : ℕ)
    (hj : j < frames.length)
    (hδpos : 0 < ((frames.getD j default).duration : ℚ))
    (hnn : ∀ i, (0 : ℚ) ≤ ((frames.getD i default).duration : ℚ)) :
    ∀ (k i : ℕ) (acc : ℚ), i < frames.length → 0 ≤ acc →
      acc ≤ (k : ℚ) * ((frames.getD j default).duration : ℚ) →
      ∃ fuel, (advanceLoop fuel frames i acc).isSome := by
  intro k
  induction k with
  | zero =>
      intro i acc hi hacc hk
      apply advanceLoop_terminates_of_reach frames j hj hδpos hnn acc ?_
        (j + frames.length - i) i acc hi hacc le_rfl ?_
      · intro i' acc' hi' hacc' hle'
        exfalso
        simp only [Nat.cast_zero, zero_mul] at hk
        linarith
      · rw [show i + (j + frames.length - i) = j + frames.length by omega,
          Nat.add_mod_right, Nat.mod_eq_of_lt hj]
  | succ k ih =>
      intro i acc hi hacc hk
      apply advanceLoop_terminates_of_reach frames j hj hδpos hnn acc ?_
        (j + frames.length - i) i acc hi hacc le_rfl ?_
      · intro i' acc' hi' hacc' hle'
        apply ih i' acc' hi' hacc'
        push_cast at hk
        linarith
      · rw [show i + (j + frames.length - i) = j + frames.length by omega,
          Nat.add_mod_right, Nat.mod_eq_of_lt hj]

/-- The divergence side: on the one-frame clip of duration 0 that `load`
can produce, the advance loop never breaks for any positive accumulator. -/
theorem advanceLoop_diverges_on_zero_clip :
    ∀ (fuel idx : ℕ) (acc : ℚ), 0 < acc →
      advanceLoop fuel [⟨7, 0⟩] idx acc = none := by
  intro fuel
  induction fuel with
  | zero => intro idx acc _; rfl
  | succ n ih =>
      intro idx acc hacc
      have hdur : (([⟨7, 0⟩] : List AnimFrame).getD idx default).duration = 0 := by
        cases idx with
        | zero => rfl
        | succ m =>
            have hd : ((default : AnimFrame)).duration = 0 := rfl
            simp [List.getD, hd]
      simp only [advanceLoop, hdur, Int.cast_zero, sub_zero, List.length_singleton,
        Nat.mod_one]
      rw [if_neg (not_lt.2 (le_of_lt hacc))]
      exact ih 0 acc hacc

/-- C10: the frame-advance loop terminates on every call whenever the
clip's per-frame durations are non-negative with a strictly positive
total; and this precondition is necessary and not guaranteed by clip
loading — a decode trace with an explicit duration-0 frame loads into a
non-empty all-zero-duration clip on which the loop runs forever for any
positive accumulated time. -/
theorem C10_advance_termination :
    (∀ (frames : List AnimFrame) (idx : ℕ) (acc : ℚ),
        (∀ f ∈ frames, (0 : ℤ) ≤ f.duration) →
        0 < (frames.map AnimFrame.duration).sum →
        0 ≤ acc → idx < frames.length →
        ∃ fuel, (advanceLoop fuel frames idx acc).isSome) ∧
    ((WebpAnimation.load (some [Except.ok (some 0, 7)])).frames = [⟨7, 0⟩] ∧
     (WebpAnimation.load (some [Except.ok (some 0, 7)])).frames ≠ [] ∧
     (∀ f ∈ (WebpAnimation.load (some [Except.ok (some 0, 7)])).frames, f.duration = 0) ∧
     (∀ (fuel idx : ℕ) (acc : ℚ), 0 < acc →
        advanceLoop fuel (WebpAnimation.load (some [Except.ok (some 0, 7)])).frames idx acc =
          none)) := by
  constructor
  · intro frames idx acc hmem hsum hacc hidx
    obtain ⟨j, hj, hjpos⟩ := exists_pos_duration frames hsum
    have hδpos : 0 < ((frames.getD j default).duration : ℚ) := by exact_mod_cast hjpos
    have hnn : ∀ i, (0 : ℚ) ≤ ((frames.getD i default).duration : ℚ) := by
      intro i
      by_cases hi : i < frames.length
      · rw [List.getD_eq_getElem frames default hi]
        exact_mod_cast hmem _ (List.getElem_mem hi)
      · rw [List.getD_eq_default frames default (le_of_not_lt hi)]
        have hd : ((default : AnimFrame)).duration = 0 := rfl
        rw [hd]
        norm_num
    have hle : acc ≤ ((⌈acc / ((frames.getD j default).duration : ℚ)⌉₊ : ℕ) : ℚ) *
        ((frames.getD j default).duration : ℚ) := by
      have h1 : acc / ((frames.getD j default).duration : ℚ) ≤
          ((⌈acc / ((frames.getD j default).duration : ℚ)⌉₊ : ℕ) : ℚ) := Nat.le_ceil _
      have h2 := mul_le_mul_of_nonneg_right h1 (le_of_lt hδpos)
      rwa [div_mul_cancel₀ acc (ne_of_gt hδpos)] at h2
    exact advanceLoop_terminates_aux frames j hj hδpos hnn
      (⌈acc / ((frames.getD j default).duration : ℚ)⌉₊) idx acc hidx hacc hle
  · exact ⟨rfl, by decide, by decide, advanceLoop_diverges_on_zero_clip⟩

end FramerBot
